import Mathlib

/-!
Shallow embedding of the `effect-http-bridge` repository
(`src/HttpBridge.ts`, `src/Result.ts`, `src/index.ts`).

The repository's core is a `Result` algebra over the `effect` library's
`Cause` failure model, a fluent first-match-wins builder, an `all`
combinator, a serialization schema, and a lazily cached runtime promise
inside `HttpBridge.Tag`.

Modelling conventions:
  - JavaScript numbers used as timestamps (`Date.now()`) are modelled as
    `Nat`; every constructor that reads the clock takes the current time
    `now : Nat` explicitly.
  - The `effect` `Cause<E>` type is external to the repository; it is
    embedded here as an inductive with the same constructors as the
    `effect` source (`Empty`, `Fail`, `Die`, `Interrupt`, `Sequential`,
    `Parallel`), with the defect payload type `D` and the interrupting
    fiber id made explicit.
  - Fallible decoding returns `Option`; a thrown exception is an
    `Except.error`.
-/

/-- Embedding of `effect`'s `Cause<E>` (consumed read-only by the
repository). `E` is the typed error, `D` the defect payload type;
`Interrupt` records the interrupting fiber id. -/
inductive Cause (E D : Type) : Type where
  | Empty : Cause E D
  | Fail (error : E) : Cause E D
  | Die (defect : D) : Cause E D
  | Interrupt (fiberId : Nat) : Cause E D
  | Sequential (left right : Cause E D) : Cause E D
  | Parallel (left right : Cause E D) : Cause E D
deriving DecidableEq, Repr

/-- Embedding of `Cause.isInterruptedOnly` from `effect/Cause`: a reducer
with `emptyCase`/`interruptCase` true, `failCase`/`dieCase` false, and
conjunction on the composite cases. -/
def Cause.isInterruptedOnly {E D : Type} : Cause E D → Bool
  | .Empty => true
  | .Fail _ => false
  | .Die _ => false
  | .Interrupt _ => true
  | .Sequential l r => Cause.isInterruptedOnly l && Cause.isInterruptedOnly r
  | .Parallel l r => Cause.isInterruptedOnly l && Cause.isInterruptedOnly r

/-- Embedding of `Cause.failureOption` from `effect/Cause`: the first
`Fail` error in left-to-right depth-first order, if any. -/
def Cause.failureOption {E D : Type} : Cause E D → Option E
  | .Empty => none
  | .Fail e => some e
  | .Die _ => none
  | .Interrupt _ => none
  | .Sequential l r =>
    match Cause.failureOption l with
    | some e => some e
    | none => Cause.failureOption r
  | .Parallel l r =>
    match Cause.failureOption l with
    | some e => some e
    | none => Cause.failureOption r

/-- Embedding of `Cause.dieOption` from `effect/Cause`: the first `Die`
defect in left-to-right depth-first order, if any. -/
def Cause.dieOption {E D : Type} : Cause E D → Option D
  | .Empty => none
  | .Fail _ => none
  | .Die d => some d
  | .Interrupt _ => none
  | .Sequential l r =>
    match Cause.dieOption l with
    | some d => some d
    | none => Cause.dieOption r
  | .Parallel l r =>
    match Cause.dieOption l with
    | some d => some d
    | none => Cause.dieOption r

/-- Result of `Cause.squash`: the first typed error if any, else the
first defect if any, else an interruption marker (effect's
`InterruptedException`). -/
inductive Squashed (E D : Type) : Type where
  | error (e : E)
  | defect (d : D)
  | interrupted
deriving DecidableEq, Repr

/-- Embedding of `Cause.squash` from `effect/Cause` (used by
`BuilderImpl.render`, `src/Result.ts` line 893). -/
def Cause.squash {E D : Type} (c : Cause E D) : Squashed E D :=
  match Cause.failureOption c with
  | some e => Squashed.error e
  | none =>
    match Cause.dieOption c with
    | some d => Squashed.defect d
    | none => Squashed.interrupted

/-- Embedding of `Result<A, E>` (`src/Result.ts`): a `Success` carries a
value and the `timestamp` assigned at construction; a `Failure` carries a
`Cause`. -/
inductive Result (A E D : Type) : Type where
  | Success (value : A) (timestamp : Nat) : Result A E D
  | Failure (cause : Cause E D) : Result A E D
deriving DecidableEq, Repr

/-- Embedding of the `success` constructor (`src/Result.ts` lines
489-500): the timestamp is `options?.timestamp ?? Date.now()`, with the
clock reading passed as `now`. -/
def Result.success {A E D : Type} (value : A) (timestampOpt : Option Nat)
    (now : Nat) : Result A E D :=
  Result.Success value (timestampOpt.getD now)

/-- Embedding of the `failure` constructor (`src/Result.ts` lines
532-537). -/
def Result.failure {A E D : Type} (cause : Cause E D) : Result A E D :=
  Result.Failure cause

/-- Embedding of `fail` (`src/Result.ts` lines 543-544): wraps a bare
typed error in a single-`Fail` cause. -/
def Result.fail {A E D : Type} (error : E) : Result A E D :=
  Result.failure (Cause.Fail error)

/-- Embedding of the `isSuccess` refinement (`src/Result.ts` lines
481-483). -/
def Result.isSuccess {A E D : Type} : Result A E D → Bool
  | .Success _ _ => true
  | .Failure _ => false

/-- Embedding of the `isFailure` refinement (`src/Result.ts` lines
515-517). -/
def Result.isFailure {A E D : Type} : Result A E D → Bool
  | .Success _ _ => false
  | .Failure _ => true

/-- Embedding of `isInterrupted` (`src/Result.ts` lines 523-526):
`result._tag === "Failure" && Cause.isInterruptedOnly(result.cause)`. -/
def Result.isInterrupted {A E D : Type} : Result A E D → Bool
  | .Success _ _ => false
  | .Failure c => Cause.isInterruptedOnly c

/-- Embedding of the `value` accessor (`src/Result.ts` lines 561-566). -/
def Result.value {A E D : Type} : Result A E D → Option A
  | .Success a _ => some a
  | .Failure _ => none

/-- Embedding of `getOrElse` (`src/Result.ts` lines 572-577):
`Option.getOrElse(value(self), orElse)`, with the lazy fallback as a
thunk. The TS return type is the union `A | B`; it is modelled at the
common type `A`. -/
def Result.getOrElse {A E D : Type} (self : Result A E D)
    (fallback : Unit → A) : A :=
  match Result.value self with
  | some a => a
  | none => fallback ()

/-- Embedding of `map` (`src/Result.ts` lines 629-639): the failure
branch rebuilds `failure(self.cause)`; the success branch calls
`success(f(self.value), self)`, so the timestamp option is always the
original timestamp and the clock reading `now` is never used. -/
def Result.map {A B E D : Type} (now : Nat) (self : Result A E D)
    (f : A → B) : Result B E D :=
  match self with
  | .Failure c => Result.failure c
  | .Success a ts => Result.success (f a) (some ts) now

/-- Embedding of `effect`'s `Exit<A, E>` as consumed by `fromExit`: a
completed outcome, either a value or a cause. -/
inductive Exit (A E D : Type) : Type where
  | Success (value : A) : Exit A E D
  | Failure (cause : Cause E D) : Exit A E D
deriving DecidableEq, Repr

/-- Embedding of `fromExit` (`src/Result.ts` lines 451-454): the success
branch calls `success(exit.value)` with no options, so the timestamp is
the clock reading `now`. -/
def Result.fromExit {A E D : Type} (now : Nat) (exit : Exit A E D) :
    Result A E D :=
  match exit with
  | .Success v => Result.success v none now
  | .Failure c => Result.failure c

/-- Embedding of `fromExitWithPrevious` (`src/Result.ts` lines 461-465):
the deprecated variant that also receives the previous result. -/
def Result.fromExitWithPrevious {A E D : Type} (now : Nat)
    (exit : Exit A E D) (_previous : Option (Result A E D)) : Result A E D :=
  match exit with
  | .Success v => Result.success v none now
  | .Failure c => Result.failure c

/-- Embedding of `ResultProto[Equal.symbol]` (`src/Result.ts` lines
425-435): tags must agree, then `Equal.equals` compares the values (for
`Success`) or the causes (for `Failure`). The component equalities of
`effect`'s `Equal.equals` are passed in as `eqA` and `eqC`. -/
def Result.equals {A E D : Type} (eqA : A → A → Bool)
    (eqC : Cause E D → Cause E D → Bool) :
    Result A E D → Result A E D → Bool
  | .Success a _, .Success a2 _ => eqA a a2
  | .Failure c, .Failure c2 => eqC c c2
  | .Success _ _, .Failure _ => false
  | .Failure _, .Success _ _ => false

/-- One entry of the collection passed to `all` (`src/Result.ts` lines
684-734): either a `Result` (recognised in TS by the `isResult` guard)
or a plain value. -/
inductive AllEntry (V E D : Type) : Type where
  | res (r : Result V E D) : AllEntry V E D
  | plain (v : V) : AllEntry V E D
deriving DecidableEq, Repr

/-- Loop of `all` specialised to the iterable case (`src/Result.ts`
lines 721-733): `acc` is the `successes` array built so far; a plain
entry is stored as-is, a non-`Success` `Result` entry is returned
immediately (the TS code returns that `Failure` object itself, so its
cause is preserved verbatim), and a `Success` entry contributes its
value. -/
def Result.allGo {V E D : Type} (now : Nat) (acc : List V) :
    List (AllEntry V E D) → Result (List V) E D
  | [] => Result.success acc none now
  | .plain v :: rest => Result.allGo now (acc ++ [v]) rest
  | .res (.Failure c) :: _ => Result.Failure c
  | .res (.Success v _) :: rest => Result.allGo now (acc ++ [v]) rest

/-- Embedding of `all` on a finite sequence (`src/Result.ts` lines
684-734, iterable branch): the entries are visited in input order and
the final `success(successes)` call carries no timestamp option, so the
result timestamp is the clock reading `now`. -/
def Result.all {V E D : Type} (now : Nat) (entries : List (AllEntry V E D)) :
    Result (List V) E D :=
  Result.allGo now [] entries

/-- Loop of `all` specialised to the keyed-record case (`src/Result.ts`
lines 716-733, `Object.entries` branch): identical to the iterable loop
but the built collection keeps each entry under its key, in key order. -/
def Result.allRecordGo {K V E D : Type} (now : Nat) (acc : List (K × V)) :
    List (K × AllEntry V E D) → Result (List (K × V)) E D
  | [] => Result.success acc none now
  | (k, .plain v) :: rest => Result.allRecordGo now (acc ++ [(k, v)]) rest
  | (_, .res (.Failure c)) :: _ => Result.Failure c
  | (k, .res (.Success v _)) :: rest =>
    Result.allRecordGo now (acc ++ [(k, v)]) rest

/-- Embedding of `all` on a keyed record (`src/Result.ts` lines 684-734,
`Object.entries` branch), the record being modelled as its entry list in
key order. -/
def Result.allRecord {K V E D : Type} (now : Nat)
    (entries : List (K × AllEntry V E D)) : Result (List (K × V)) E D :=
  Result.allRecordGo now [] entries

/-- Extraction used to state the success case of `all`: the value a
non-failure entry contributes to the output collection (`none` exactly
for `Failure` `Result` entries). -/
def AllEntry.entryValue {V E D : Type} : AllEntry V E D → Option V
  | .plain v => some v
  | .res (.Success v _) => some v
  | .res (.Failure _) => none

/-- Embedding of the `BuilderImpl` state (`src/Result.ts` lines
800-802): the bound result and the captured-output slot, initially
`Option.none`. -/
structure BuilderImpl (O A E D : Type) : Type where
  result : Result A E D
  output : Option O
deriving DecidableEq, Repr

/-- Embedding of the `builder` entry point (`src/Result.ts` lines
740-747): `new BuilderImpl(self)` with an empty output slot. -/
def Result.builder {O A E D : Type} (self : Result A E D) :
    BuilderImpl O A E D :=
  ⟨self, none⟩

/-- Embedding of `BuilderImpl.when` (`src/Result.ts` lines 804-823): if
the output slot is still empty and the refinement accepts the bound
result, run the clause body; capture its output only when it is
`Option.some`. -/
def BuilderImpl.when {O A E D : Type} (b : BuilderImpl O A E D)
    (refinement : Result A E D → Bool)
    (f : Result A E D → Option O) : BuilderImpl O A E D :=
  if b.output.isNone && refinement b.result then
    match f b.result with
    | some o => ⟨b.result, some o⟩
    | none => b
  else b

/-- Embedding of `BuilderImpl.onSuccess` (`src/Result.ts` lines
829-833). The `Failure` branch of the clause body is unreachable because
`when` guards with `isSuccess`. -/
def BuilderImpl.onSuccess {O A E D : Type} (b : BuilderImpl O A E D)
    (f : A → Result A E D → O) : BuilderImpl O A E D :=
  b.when Result.isSuccess fun r =>
    match r with
    | .Success a _ => some (f a r)
    | .Failure _ => none

/-- Embedding of `BuilderImpl.onFailure` (`src/Result.ts` lines
835-839). -/
def BuilderImpl.onFailure {O A E D : Type} (b : BuilderImpl O A E D)
    (f : Cause E D → Result A E D → O) : BuilderImpl O A E D :=
  b.when Result.isFailure fun r =>
    match r with
    | .Failure c => some (f c r)
    | .Success _ _ => none

/-- Embedding of `BuilderImpl.onErrorIf` (`src/Result.ts` lines
847-857): fires on a `Failure` whose cause yields a typed error passing
the predicate; `Option.filter` and `Option.map` are inlined. -/
def BuilderImpl.onErrorIf {O A E D : Type} (b : BuilderImpl O A E D)
    (refinement : E → Bool) (f : E → Result A E D → O) :
    BuilderImpl O A E D :=
  b.when Result.isFailure fun r =>
    match r with
    | .Failure c =>
      match Cause.failureOption c with
      | some e => if refinement e then some (f e r) else none
      | none => none
    | .Success _ _ => none

/-- Embedding of `BuilderImpl.onError` (`src/Result.ts` lines 841-845):
`onErrorIf(constTrue, f)`. -/
def BuilderImpl.onError {O A E D : Type} (b : BuilderImpl O A E D)
    (f : E → Result A E D → O) : BuilderImpl O A E D :=
  b.onErrorIf (fun _ => true) f

/-- Embedding of `BuilderImpl.onErrorTag` (`src/Result.ts` lines
859-869): `onErrorIf` with a tag-membership predicate; the tag of an
error is extracted by `tagOf` and compared against the given tags. -/
def BuilderImpl.onErrorTag {O A E D : Type} (b : BuilderImpl O A E D)
    (tagOf : E → String) (tags : List String)
    (f : E → Result A E D → O) : BuilderImpl O A E D :=
  b.onErrorIf (fun e => tags.contains (tagOf e)) f

/-- Embedding of `BuilderImpl.onDefect` (`src/Result.ts` lines
871-879): fires on a `Failure` whose cause yields a defect. -/
def BuilderImpl.onDefect {O A E D : Type} (b : BuilderImpl O A E D)
    (f : D → Result A E D → O) : BuilderImpl O A E D :=
  b.when Result.isFailure fun r =>
    match r with
    | .Failure c =>
      match Cause.dieOption c with
      | some d => some (f d r)
      | none => none
    | .Success _ _ => none

/-- Embedding of `BuilderImpl.orElse` (`src/Result.ts` lines 881-883):
`Option.getOrElse(this.output, orElse)` with the lazy fallback as a
thunk. -/
def BuilderImpl.orElse {O A E D : Type} (b : BuilderImpl O A E D)
    (fallback : Unit → O) : O :=
  match b.output with
  | some o => o
  | none => fallback ()

/-- Embedding of `BuilderImpl.orNull` (`src/Result.ts` lines 885-887):
`null` is modelled as `Option.none`. -/
def BuilderImpl.orNull {O A E D : Type} (b : BuilderImpl O A E D) :
    Option O :=
  b.output

/-- Embedding of `BuilderImpl.render` (`src/Result.ts` lines 889-896):
return the captured output if set; else on a `Failure` throw
`Cause.squash(this.result.cause)` (modelled as `Except.error`); else
return `null` (modelled as `Option.none`). -/
def BuilderImpl.render {O A E D : Type} (b : BuilderImpl O A E D) :
    Except (Squashed E D) (Option O) :=
  match b.output with
  | some o => Except.ok (some o)
  | none =>
    match b.result with
    | .Failure c => Except.error (Cause.squash c)
    | .Success _ _ => Except.ok none

/-- Structural form a `Result` is serialized to (`src/Result.ts` lines
903-927 and the `Schema` transform at lines 944-985): a tagged union
whose `Success` arm keeps the timestamp and the encoded value and whose
`Failure` arm keeps the encoded cause. `A1` and `C1` are the encoded
value and cause types produced by the field codecs. -/
inductive ResultEncoded (A1 C1 : Type) : Type where
  | Success (timestamp : Nat) (value : A1) : ResultEncoded A1 C1
  | Failure (cause : C1) : ResultEncoded A1 C1
deriving DecidableEq, Repr

/-- Encoding direction of the `Schema` transform (`src/Result.ts` lines
960-984): the transform's own `encode` is `identity`, after which the
`TaggedStruct` union encodes the `value` field with the success codec
and the `cause` field with the `Schema_.Cause` codec (`encA`, `encC`
here). -/
def ResultSchema.encode {A E D A1 C1 : Type} (encA : A → A1)
    (encC : Cause E D → C1) : Result A E D → ResultEncoded A1 C1
  | .Success a ts => ResultEncoded.Success ts (encA a)
  | .Failure c => ResultEncoded.Failure (encC c)

/-- Decoding direction of the `Schema` transform (`src/Result.ts` lines
960-984): the `TaggedStruct` union first decodes the fields with the
codecs (`decA`, `decC` here, fallible), then the transform's `decode`
rebuilds the `Result` via `success(e.value, e)` — preserving the decoded
timestamp — or `failure(e.cause)`. -/
def ResultSchema.decode {A E D A1 C1 : Type} (decA : A1 → Option A)
    (decC : C1 → Option (Cause E D)) :
    ResultEncoded A1 C1 → Option (Result A E D)
  | .Success ts v =>
    match decA v with
    | some a => some (Result.success a (some ts) ts)
    | none => none
  | .Failure c1 =>
    match decC c1 with
    | some c => some (Result.failure c)
    | none => none

/-- State of the lazily cached runtime of one `HttpBridge.Tag` client
(`src/HttpBridge.ts` lines 247-256): the `runtimePromise` variable
(holding, once the promise settles, its outcome — a runtime `R` or an
initialization error `X`) together with a count of how many times the
initialization `Layer.toRuntime(...).runPromise` has been started.
`getRuntime`'s body is synchronous, so under JavaScript's run-to-
completion semantics a sequence of interleaved callers is a sequence of
atomic `getRuntime` calls. -/
structure RuntimeCache (R X : Type) : Type where
  runtimePromise : Option (Except X R)
  initCount : Nat
deriving Repr

/-- State of `runtimePromise` before the first call: `undefined`. -/
def RuntimeCache.initial {R X : Type} : RuntimeCache R X :=
  ⟨none, 0⟩

/-- Embedding of `getRuntime` (`src/HttpBridge.ts` lines 248-256): if
`runtimePromise` is unset, start initialization (whose outcome is
`outcomes i` for the `i`-th initialization ever started) and cache the
promise unconditionally; always return the cached promise. -/
def RuntimeCache.getRuntime {R X : Type} (outcomes : Nat → Except X R)
    (s : RuntimeCache R X) : RuntimeCache R X × Except X R :=
  match s.runtimePromise with
  | none =>
    (⟨some (outcomes s.initCount), s.initCount + 1⟩, outcomes s.initCount)
  | some p => (s, p)

/-- Runs `n` successive `getRuntime` calls from the initial state,
collecting the outcome each caller observes. -/
def RuntimeCache.runCalls {R X : Type} (outcomes : Nat → Except X R) :
    Nat → RuntimeCache R X × List (Except X R)
  | 0 => (RuntimeCache.initial, [])
  | n + 1 =>
    let sr := RuntimeCache.runCalls outcomes n
    let s2 := RuntimeCache.getRuntime outcomes sr.1
    (s2.1, sr.2 ++ [s2.2])

/-- Bridge lemma for claim C5: `Cause.isInterruptedOnly` holds exactly
when the cause contains no `Fail` and no `Die` leaf, i.e. when both
`failureOption` and `dieOption` are empty. -/
theorem Cause.isInterruptedOnly_eq {E D : Type} (c : Cause E D) :
    Cause.isInterruptedOnly c
      = ((Cause.failureOption c).isNone && (Cause.dieOption c).isNone) := by
  induction c with
  | Empty => rfl
  | Fail e => rfl
  | Die d => rfl
  | Interrupt i => rfl
  | Sequential l r ihl ihr =>
    simp only [Cause.isInterruptedOnly, Cause.failureOption, Cause.dieOption,
      ihl, ihr]
    cases Cause.failureOption l <;> cases Cause.dieOption l <;>
      cases Cause.failureOption r <;> cases Cause.dieOption r <;> simp
  | Parallel l r ihl ihr =>
    simp only [Cause.isInterruptedOnly, Cause.failureOption, Cause.dieOption,
      ihl, ihr]
    cases Cause.failureOption l <;> cases Cause.dieOption l <;>
      cases Cause.failureOption r <;> cases Cause.dieOption r <;> simp

/-- C4: `map(success(a), f)` equals `success(f(a))` carrying the original
timestamp, and `map(failure(c), f)` equals `failure(c)` with the cause
unchanged — for every value, function, cause and clock reading. -/
theorem Result.map_spec {A B E D : Type} :
    (∀ (now : Nat) (a : A) (ts : Nat) (f : A → B),
      Result.map (E := E) (D := D) now (Result.Success a ts) f
        = Result.Success (f a) ts) ∧
    (∀ (now : Nat) (c : Cause E D) (f : A → B),
      Result.map now (Result.Failure c) f = Result.Failure c) := by
  exact ⟨fun _ _ _ _ => rfl, fun _ _ _ => rfl⟩

/-- C5: `isInterrupted` is false on every `Success`, and on a `Failure`
it is true exactly when the cause yields no typed error
(`failureOption` empty) and no defect (`dieOption` empty) — i.e. the
cause consists solely of interruption; in particular it is false
whenever the cause contains a `Fail` or a `Die`. -/
theorem Result.isInterrupted_spec {A E D : Type} :
    (∀ (a : A) (ts : Nat),
      Result.isInterrupted (E := E) (D := D) (Result.Success a ts) = false) ∧
    (∀ c : Cause E D,
      Result.isInterrupted (A := A) (Result.Failure c)
        = ((Cause.failureOption c).isNone && (Cause.dieOption c).isNone)) := by
  refine ⟨fun _ _ => rfl, fun c => ?_⟩
  exact Cause.isInterruptedOnly_eq c

/-- C6: `getOrElse(success(a), fallback)` returns the value `a` for every
fallback thunk — so the outcome never depends on (and the code never
evaluates) the fallback on the success path — and
`getOrElse(failure(c), fallback)` returns `fallback()`. -/
theorem Result.getOrElse_spec {A E D : Type} :
    (∀ (a : A) (ts : Nat) (fallback : Unit → A),
      Result.getOrElse (E := E) (D := D) (Result.Success a ts) fallback = a) ∧
    (∀ (c : Cause E D) (fallback : Unit → A),
      Result.getOrElse (Result.Failure c) fallback = fallback ()) := by
  exact ⟨fun _ _ _ => rfl, fun _ _ => rfl⟩

/-- C9: `fromExitWithPrevious(exit, previous)` returns the same `Result`
as `fromExit(exit)` for every exit, every optional previous result and
every clock reading — the `previous` argument has no effect. -/
theorem Result.fromExitWithPrevious_eq_fromExit {A E D : Type} :
    ∀ (now : Nat) (exit : Exit A E D) (previous : Option (Result A E D)),
      Result.fromExitWithPrevious now exit previous
        = Result.fromExit now exit := by
  intro now exit previous
  cases exit <;> rfl

/-- C10: `Result` structural equality disregards the timestamp:
`success(a, t1)` equals `success(a, t2)` whenever the value equality is
reflexive at `a`, the comparison of two `Success`es is exactly the value
comparison (for any timestamps on either side), the comparison of two
`Failure`s is exactly the cause comparison, and mixed tags compare
unequal — the timestamp field is never consulted. -/
theorem Result.equals_ignores_timestamp {A E D : Type} :
    (∀ (eqA : A → A → Bool) (eqC : Cause E D → Cause E D → Bool)
        (a : A) (t1 t2 n1 n2 : Nat), eqA a a = true →
      Result.equals eqA eqC (Result.success a (some t1) n1)
        (Result.success a (some t2) n2) = true) ∧
    (∀ (eqA : A → A → Bool) (eqC : Cause E D → Cause E D → Bool)
        (a a2 : A) (t1 t2 : Nat),
      Result.equals eqA eqC (Result.Success a t1) (Result.Success a2 t2)
        = eqA a a2) ∧
    (∀ (eqA : A → A → Bool) (eqC : Cause E D → Cause E D → Bool)
        (c c2 : Cause E D),
      Result.equals eqA eqC (Result.Failure c) (Result.Failure c2)
        = eqC c c2) ∧
    (∀ (eqA : A → A → Bool) (eqC : Cause E D → Cause E D → Bool)
        (a : A) (t : Nat) (c : Cause E D),
      Result.equals eqA eqC (Result.Success a t) (Result.Failure c) = false ∧
      Result.equals eqA eqC (Result.Failure c) (Result.Success a t) = false) := by
  refine ⟨fun eqA eqC a t1 t2 n1 n2 h => ?_, fun _ _ _ _ _ _ => rfl,
    fun _ _ _ _ => rfl, fun _ _ _ _ _ => ⟨rfl, rfl⟩⟩
  simpa [Result.equals, Result.success] using h

/-- Witness for C10 at a concrete input: the same value under two
different timestamps compares equal. -/
theorem Result.equals_ignores_timestamp_witness :
    Result.equals (fun a b : Nat => a == b) (fun _ _ : Cause Nat Nat => false)
      (Result.success 5 (some 1) 0) (Result.success 5 (some 2) 0) = true :=
  Result.equals_ignores_timestamp.1 (fun a b => a == b) (fun _ _ => false)
    5 1 2 0 0 (by decide)

/-- C3: `render()` returns the captured output when the slot is set (a
clause has fired); when the slot is empty and the bound result is a
`Failure` it raises a fault — the squash of the original cause — instead
of returning a value; when the slot is empty and the bound result is a
`Success` it returns `null`. -/
theorem BuilderImpl.render_spec {O A E D : Type} (b : BuilderImpl O A E D) :
    (∀ o : O, b.output = some o → b.render = Except.ok (some o)) ∧
    (b.output = none → ∀ c : Cause E D, b.result = Result.Failure c →
      b.render = Except.error (Cause.squash c)) ∧
    (b.output = none → ∀ (a : A) (ts : Nat),
      b.result = Result.Success a ts → b.render = Except.ok none) := by
  refine ⟨fun o h => ?_, fun h c hr => ?_, fun h a ts hr => ?_⟩
  · simp [BuilderImpl.render, h]
  · simp [BuilderImpl.render, h, hr]
  · simp [BuilderImpl.render, h, hr]

/-- Witness for C3 at a concrete input: an unmatched `Failure` makes
`render` raise the squashed original cause. -/
theorem BuilderImpl.render_spec_witness :
    BuilderImpl.render
        (⟨Result.Failure (Cause.Fail 3), none⟩ : BuilderImpl Nat Nat Nat Nat)
      = Except.error (Cause.squash (Cause.Fail 3)) :=
  (BuilderImpl.render_spec _).2.1 rfl (Cause.Fail 3) rfl

/-- Counterexample for C2 as stated: on a `Failure` whose cause is a
defect (`Die`), `onError` never fires (its cause yields no typed error),
so the chain `builder(r).onError(h1).onError(h2).orElse(h3)` evaluates
`h3` — its outcome tracks the fallback (3 for one fallback, 4 for
another) and is not `h1`'s output (here constantly 1). So on this
`Failure` the chain does not invoke `h1` only: it invokes `h3`. -/
theorem BuilderImpl.onError_counterexample :
    ((((Result.builder (Result.Failure (Cause.Die 0))
          : BuilderImpl Nat Nat Nat Nat).onError
        (fun _ _ => 1)).onError (fun _ _ => 2)).orElse (fun _ => 3)) = 3 ∧
    ((((Result.builder (Result.Failure (Cause.Die 0))
          : BuilderImpl Nat Nat Nat Nat).onError
        (fun _ _ => 1)).onError (fun _ _ => 2)).orElse (fun _ => 4)) = 4 ∧
    (3 : Nat) ≠ 1 := by
  exact ⟨rfl, rfl, by decide⟩

/-- C2 (amended): the captured-output slot starts empty; once it is set
every later clause is a no-op; a clause whose guard matches and whose
body produces an output captures it when the slot is still empty; and
for every `Failure` whose cause yields a typed error `e`,
`builder(r).onError(h1).onError(h2).orElse(h3)` returns `h1(e, r)` —
independent of `h2` and `h3`, which are therefore never invoked. (When
the cause yields no typed error, neither `onError` clause fires and
`orElse` evaluates `h3`, as the counterexample shows.) -/
theorem BuilderImpl.first_match_spec {O A E D : Type} :
    (∀ r : Result A E D, (Result.builder (O := O) r).output = none) ∧
    (∀ (b : BuilderImpl O A E D) (p : Result A E D → Bool)
        (f : Result A E D → Option O),
      b.output.isSome = true → b.when p f = b) ∧
    (∀ (b : BuilderImpl O A E D) (p : Result A E D → Bool)
        (f : Result A E D → Option O) (o : O),
      b.output = none → p b.result = true → f b.result = some o →
      (b.when p f).output = some o) ∧
    (∀ (c : Cause E D) (e : E) (h1 h2 : E → Result A E D → O)
        (h3 : Unit → O),
      Cause.failureOption c = some e →
      ((((Result.builder (Result.Failure c)).onError h1).onError h2).orElse
        h3) = h1 e (Result.Failure c)) := by
  refine ⟨fun _ => rfl, fun b p f h => ?_, fun b p f o h hp hf => ?_,
    fun c e h1 h2 h3 hfo => ?_⟩
  · cases hb : b.output with
    | none => rw [hb] at h; simp at h
    | some o => simp [BuilderImpl.when, hb]
  · simp [BuilderImpl.when, h, hp, hf]
  · simp [Result.builder, BuilderImpl.onError, BuilderImpl.onErrorIf,
      BuilderImpl.when, Result.isFailure, BuilderImpl.orElse, hfo]

/-- Witness for C2 (amended) at a concrete input: a `Failure` whose
cause is `Fail 5` makes the chain return `h1 5 r = 15`, whatever `h2`
and `h3` are. -/
theorem BuilderImpl.first_match_spec_witness :
    ((((Result.builder (Result.Failure (Cause.Fail 5))
          : BuilderImpl Nat Nat Nat Nat).onError
        (fun e _ => e + 10)).onError (fun _ _ => 2)).orElse (fun _ => 3))
      = 15 :=
  BuilderImpl.first_match_spec.2.2.2 (Cause.Fail 5) 5 (fun e _ => e + 10)
    (fun _ _ => 2) (fun _ => 3) rfl

/-- Success-path lemma for C1 (iterable case): when no entry is a
`Failure` `Result`, the loop appends every entry's contributed value to
the accumulator and wraps the whole in a `Success` timestamped `now`. -/
theorem Result.allGo_ok {V E D : Type} (now : Nat) :
    ∀ (entries : List (AllEntry V E D)) (acc : List V),
      (entries.all fun e => (AllEntry.entryValue e).isSome) = true →
      Result.allGo now acc entries
        = Result.Success (acc ++ entries.filterMap AllEntry.entryValue) now := by
  intro entries
  induction entries with
  | nil => intro acc _; simp [Result.allGo, Result.success]
  | cons e rest ih =>
    intro acc h
    rw [List.all_cons, Bool.and_eq_true] at h
    cases e with
    | plain v =>
      rw [Result.allGo, ih (acc ++ [v]) h.2]
      simp [AllEntry.entryValue]
    | res r =>
      cases r with
      | Success v ts =>
        rw [Result.allGo, ih (acc ++ [v]) h.2]
        simp [AllEntry.entryValue]
      | Failure c => simp [AllEntry.entryValue] at h

/-- Failure-path lemma for C1 (iterable case): the loop stops at the
first `Failure` `Result` entry and returns it. -/
theorem Result.allGo_failure {V E D : Type} (now : Nat) (c : Cause E D) :
    ∀ (pre post : List (AllEntry V E D)) (acc : List V),
      (pre.all fun e => (AllEntry.entryValue e).isSome) = true →
      Result.allGo now acc (pre ++ AllEntry.res (Result.Failure c) :: post)
        = Result.Failure c := by
  intro pre
  induction pre with
  | nil => intro post acc _; rfl
  | cons e rest ih =>
    intro post acc h
    rw [List.all_cons, Bool.and_eq_true] at h
    cases e with
    | plain v => rw [List.cons_append, Result.allGo]; exact ih post _ h.2
    | res r =>
      cases r with
      | Success v ts => rw [List.cons_append, Result.allGo]; exact ih post _ h.2
      | Failure c2 => simp [AllEntry.entryValue] at h

/-- Success-path lemma for C1 (keyed-record case). -/
theorem Result.allRecordGo_ok {K V E D : Type} (now : Nat) :
    ∀ (entries : List (K × AllEntry V E D)) (acc : List (K × V)),
      (entries.all fun e => (AllEntry.entryValue e.2).isSome) = true →
      Result.allRecordGo now acc entries
        = Result.Success
            (acc ++ entries.filterMap fun e =>
              (AllEntry.entryValue e.2).map fun v => (e.1, v)) now := by
  intro entries
  induction entries with
  | nil => intro acc _; simp [Result.allRecordGo, Result.success]
  | cons e rest ih =>
    intro acc h
    rw [List.all_cons, Bool.and_eq_true] at h
    obtain ⟨k, e2⟩ := e
    cases e2 with
    | plain v =>
      rw [Result.allRecordGo, ih (acc ++ [(k, v)]) h.2]
      simp [AllEntry.entryValue]
    | res r =>
      cases r with
      | Success v ts =>
        rw [Result.allRecordGo, ih (acc ++ [(k, v)]) h.2]
        simp [AllEntry.entryValue]
      | Failure c => simp [AllEntry.entryValue] at h

/-- Failure-path lemma for C1 (keyed-record case). -/
theorem Result.allRecordGo_failure {K V E D : Type} (now : Nat)
    (c : Cause E D) (k : K) :
    ∀ (pre post : List (K × AllEntry V E D)) (acc : List (K × V)),
      (pre.all fun e => (AllEntry.entryValue e.2).isSome) = true →
      Result.allRecordGo now acc
          (pre ++ (k, AllEntry.res (Result.Failure c)) :: post)
        = Result.Failure c := by
  intro pre
  induction pre with
  | nil => intro post acc _; rfl
  | cons e rest ih =>
    intro post acc h
    rw [List.all_cons, Bool.and_eq_true] at h
    obtain ⟨k2, e2⟩ := e
    cases e2 with
    | plain v => rw [List.cons_append, Result.allRecordGo]; exact ih post _ h.2
    | res r =>
      cases r with
      | Success v ts =>
        rw [List.cons_append, Result.allRecordGo]; exact ih post _ h.2
      | Failure c2 => simp [AllEntry.entryValue] at h

/-- C1: for a finite sequence (and likewise for a keyed record, modelled
as its entry list in key order) of `Result`s and plain values, `all`
returns the first `Failure` `Result` entry verbatim when one occurs
(entries before it contain no `Failure`), and when every `Result` entry
is a `Success` it returns a `Success` — timestamped with the clock
reading — wrapping the same-shaped collection where each `Result` entry
is replaced by its value and each plain entry is kept as-is. -/
theorem Result.all_spec {K V E D : Type} :
    (∀ (now : Nat) (entries : List (AllEntry V E D)),
      (entries.all fun e => (AllEntry.entryValue e).isSome) = true →
      Result.all now entries
        = Result.Success (entries.filterMap AllEntry.entryValue) now) ∧
    (∀ (now : Nat) (pre post : List (AllEntry V E D)) (c : Cause E D),
      (pre.all fun e => (AllEntry.entryValue e).isSome) = true →
      Result.all now (pre ++ AllEntry.res (Result.Failure c) :: post)
        = Result.Failure c) ∧
    (∀ (now : Nat) (entries : List (K × AllEntry V E D)),
      (entries.all fun e => (AllEntry.entryValue e.2).isSome) = true →
      Result.allRecord now entries
        = Result.Success
            (entries.filterMap fun e =>
              (AllEntry.entryValue e.2).map fun v => (e.1, v)) now) ∧
    (∀ (now : Nat) (pre post : List (K × AllEntry V E D)) (k : K)
        (c : Cause E D),
      (pre.all fun e => (AllEntry.entryValue e.2).isSome) = true →
      Result.allRecord now (pre ++ (k, AllEntry.res (Result.Failure c)) :: post)
        = Result.Failure c) := by
  refine ⟨fun now entries h => ?_, fun now pre post c h => ?_,
    fun now entries h => ?_, fun now pre post k c h => ?_⟩
  · simpa using Result.allGo_ok now entries [] h
  · exact Result.allGo_failure now c pre post [] h
  · simpa using Result.allRecordGo_ok now entries [] h
  · exact Result.allRecordGo_failure now c k pre post [] h

/-- Witness for C1 at concrete inputs: `all([success 1, success 2])`
yields `Success [1, 2]` timestamped with the clock reading, and
`all([failure c1, failure c2])` yields the first failure. -/
theorem Result.all_spec_witness :
    Result.all 7 [AllEntry.res (Result.Success 1 0),
        AllEntry.res (Result.Success 2 0)]
      = (Result.Success [1, 2] 7 : Result (List Nat) Nat Nat) ∧
    Result.all 7 [AllEntry.res (Result.Failure (Cause.Fail 1)),
        AllEntry.res (Result.Failure (Cause.Fail 2))]
      = (Result.Failure (Cause.Fail 1) : Result (List Nat) Nat Nat) := by
  constructor
  · have h := (Result.all_spec (K := Nat)).1 7
      ([AllEntry.res (Result.Success 1 0), AllEntry.res (Result.Success 2 0)]
        : List (AllEntry Nat Nat Nat))
      (by decide)
    simpa using h
  · have h := (Result.all_spec (K := Nat)).2.1 7
      ([] : List (AllEntry Nat Nat Nat))
      [AllEntry.res (Result.Failure (Cause.Fail 2))] (Cause.Fail 1)
      (by decide)
    simpa using h

/-- C7: for every `Result` within the domain of the serialization
schema — i.e. whose value and cause the field codecs round-trip —
encoding and then decoding yields `some` of a `Result` equal to the
original (same tag, same value and timestamp for `Success`, same cause
for `Failure`). -/
theorem ResultSchema.roundTrip {A E D A1 C1 : Type}
    (encA : A → A1) (decA : A1 → Option A)
    (encC : Cause E D → C1) (decC : C1 → Option (Cause E D)) :
    (∀ a, decA (encA a) = some a) → (∀ c, decC (encC c) = some c) →
    ∀ r : Result A E D,
      ResultSchema.decode decA decC (ResultSchema.encode encA encC r)
        = some r := by
  intro hA hC r
  cases r with
  | Success a ts =>
    simp [ResultSchema.encode, ResultSchema.decode, hA, Result.success]
  | Failure c =>
    simp [ResultSchema.encode, ResultSchema.decode, hC, Result.failure]

/-- Witness for C7 at a concrete input with identity codecs. -/
theorem ResultSchema.roundTrip_witness :
    ResultSchema.decode (fun n => some n) (fun c => some c)
      (ResultSchema.encode (fun n : Nat => n) (fun c : Cause Nat Nat => c)
        (Result.Success 4 9)) = some (Result.Success 4 9) :=
  ResultSchema.roundTrip (fun n : Nat => n) (fun n => some n)
    (fun c : Cause Nat Nat => c) (fun c => some c)
    (fun _ => rfl) (fun _ => rfl) (Result.Success 4 9)

/-- Counterexample for C8 as stated: with an initialization that fails
the first time (`error 7`) and would succeed on a retry (`ok 1`), two
successive `getRuntime` calls both observe the cached `error 7` and the
initialization counter stays at 1 — the second call does not retry, so
the failure is permanently cached, contradicting the claim that a later
call may retry initialization. -/
theorem RuntimeCache.no_retry_counterexample :
    ((RuntimeCache.runCalls
        (fun i => if i = 0 then Except.error 7 else Except.ok 1
          : Nat → Except Nat Nat) 2).2
      = [Except.error 7, Except.error 7]) ∧
    ((RuntimeCache.runCalls
        (fun i => if i = 0 then Except.error 7 else Except.ok 1
          : Nat → Except Nat Nat) 2).1.initCount = 1) ∧
    ((fun i => if i = 0 then Except.error 7 else Except.ok 1
        : Nat → Except Nat Nat) 1 = Except.ok 1) := by
  exact ⟨rfl, rfl, rfl⟩

/-- C8 (amended): across any number of (interleaved, hence — the body of
`getRuntime` being synchronous — serialized) calls, the runtime context
is initialized at most once: after the first call the cached promise is
the first initialization's outcome, the counter is 1 forever, and every
caller observes that same outcome. In particular if the first
initialization fails, every caller observes the same failure and the
failure is permanently cached — no later call retries initialization. -/
theorem RuntimeCache.single_flight {R X : Type}
    (outcomes : Nat → Except X R) :
    ∀ n : Nat, 1 ≤ n →
      (RuntimeCache.runCalls outcomes n).1
          = ⟨some (outcomes 0), 1⟩ ∧
      ∀ r ∈ (RuntimeCache.runCalls outcomes n).2, r = outcomes 0 := by
  intro n hn
  induction n with
  | zero => omega
  | succ m ih =>
    rcases Nat.eq_zero_or_pos m with h0 | hm
    · subst h0
      simp [RuntimeCache.runCalls, RuntimeCache.getRuntime,
        RuntimeCache.initial]
    · obtain ⟨hstate, hres⟩ := ih hm
      constructor
      · simp [RuntimeCache.runCalls, hstate, RuntimeCache.getRuntime]
      · intro r hr
        simp only [RuntimeCache.runCalls, hstate,
          RuntimeCache.getRuntime, List.mem_append, List.mem_singleton] at hr
        rcases hr with hr | hr
        · exact hres r hr
        · exact hr

/-- Witness for C8 (amended) at a concrete input: three calls with a
failing initialization all observe the same cached failure and the
initialization ran once. -/
theorem RuntimeCache.single_flight_witness :
    (RuntimeCache.runCalls (fun _ => (Except.error 5 : Except Nat Nat)) 3).1
        = ⟨some (Except.error 5), 1⟩ ∧
    ∀ r ∈ (RuntimeCache.runCalls
        (fun _ => (Except.error 5 : Except Nat Nat)) 3).2,
      r = Except.error 5 :=
  RuntimeCache.single_flight (fun _ => (Except.error 5 : Except Nat Nat)) 3
    (by decide)
